import Mathlib

/-!
# Verification of the toltec package-build core

Shallow embedding, in Lean 4, of the core modules of the toltec build
system (`scripts/toltec/version.py`, `util.py`, `ipk.py`, `recipe.py`),
together with theorems that settle the specification claims about them.

Conventions used throughout:
* Python strings are Lean `String`s; character-level operations go
  through `String.toList` so that everything is executable and
  kernel-reducible.
* Fallible Python code (functions that may `raise`) is embedded as
  `Except PyError`.
* External collaborators (the bash interpreter used as a parsing
  oracle, `dateutil`'s ISO-8601 parser) are passed in as function
  parameters rather than being reimplemented.
-/

namespace Toltec

/-- Errors raised by the embedded code. `invalidRecipe` stands for
`InvalidRecipeError`, `invalidVersion` for `InvalidVersionError`,
`buildError` for `BuildError`, and `valueError` for Python's built-in
`ValueError` (raised by `int()` on a malformed literal). -/
inductive PyError where
  | invalidRecipe (msg : String)
  | invalidVersion (msg : String)
  | buildError (msg : String)
  | valueError (msg : String)
deriving DecidableEq, Repr

/-! ## version.py -/

/-- Characters permitted in the upstream and revision parts of a version
number, from the regex `^[A-Za-z0-9.+~-]+$` in `version.py`. -/
def versionChar (c : Char) : Bool :=
  c.isAlpha || c.isDigit || c = '.' || c = '+' || c = '~' || c = '-'

/-- `_VERSION_CHARS.fullmatch s` succeeds iff `s` is a nonempty string of
permitted version characters. -/
def versionCharsFullmatch (s : String) : Bool :=
  !s.toList.isEmpty && s.toList.all versionChar

/-- Embeds the `Version` objects of `version.py`: the `upstream`,
`revision` and `epoch` attributes plus the private `_original` slot
(`none` when `_original is None`). -/
structure PyVersion where
  upstream : String
  revision : String
  epoch : Int
  original : Option String
deriving DecidableEq, Repr

/-- Embeds Python's `int()` applied to a character sequence: an optional
sign followed by at least one digit. (Python's `int()` additionally
tolerates surrounding whitespace and digit-group underscores; those
extra forms never occur in the version strings studied here.) -/
def pyInt (cs : List Char) : Except PyError Int :=
  let (sign, ds) := match cs with
    | '-' :: rest => ((-1 : Int), rest)
    | '+' :: rest => ((1 : Int), rest)
    | rest => ((1 : Int), rest)
  if ds.isEmpty || !ds.all Char.isDigit then
    .error (.valueError "invalid literal for int()")
  else
    .ok (sign * (ds.foldl (fun acc c => acc * 10 + (c.toNat - '0'.toNat)) 0 : Nat))

/-- `Version.__init__`: validates the character classes of the upstream
and revision parts, leaving `_original` unset. -/
def PyVersion.init (upstream revision : String) (epoch : Int) :
    Except PyError PyVersion :=
  if !versionCharsFullmatch upstream then
    .error (.invalidVersion "Invalid chars in upstream version")
  else if !versionCharsFullmatch revision then
    .error (.invalidVersion "Invalid chars in revision")
  else
    .ok ⟨upstream, revision, epoch, none⟩

/-- `str.find` for a single character: index of the first occurrence, or
`none` where Python returns `-1`. -/
def strFindChar (s : String) (c : Char) : Option Nat :=
  s.toList.findIdx? (· = c)

/-- `Version.parse`: splits off the epoch at the first `':'` and the
revision at the first `'-'`, then constructs the version.  Mirrors the
source faithfully, including the fact that `result._original` is
assigned from the local `version` variable *after* that variable has
been stripped down to the upstream part. -/
def PyVersion.parse (version : String) : Except PyError PyVersion := do
  let (epochE, v1) :=
    match strFindChar version ':' with
    | none => (Except.ok (0 : Int), version)
    | some i =>
        (pyInt (version.toList.take i), String.mk (version.toList.drop (i + 1)))
  let epoch ← epochE
  let (revision, v2) :=
    match strFindChar v1 '-' with
    | none => ("0", v1)
    | some i =>
        (String.mk (v1.toList.drop (i + 1)), String.mk (v1.toList.take i))
  let upstream := v2
  let result ← PyVersion.init upstream revision epoch
  .ok { result with original := some v2 }

/-- `Version.__str__`: prefers `_original` when set; otherwise rebuilds
the string from the epoch, upstream and revision parts. -/
def PyVersion.str (v : PyVersion) : String :=
  match v.original with
  | some o => o
  | none =>
      let epochS := if v.epoch = 0 then "" else s!"{v.epoch}:"
      let revisionS :=
        if v.revision = "0" && !v.upstream.toList.contains '-' then ""
        else "-" ++ v.revision
      epochS ++ v.upstream ++ revisionS

/-! ## util.py -/

/-- Splits a list of characters at `'/'` separators. -/
def splitSlashAux : List Char → List Char → List (List Char)
  | [], acc => [acc.reverse]
  | '/' :: rest, acc => acc.reverse :: splitSlashAux rest []
  | c :: rest, acc => splitSlashAux rest (c :: acc)

/-- `util.split_all`: decomposes a POSIX path into its directory
components.  The source peels components off the end with
`os.path.split`, skipping empty basenames and stopping at `''` or `'/'`;
on every such terminating input this equals splitting at `'/'` and
dropping the empty pieces. -/
def split_all (path : String) : List String :=
  ((splitSlashAux path.toList []).map String.mk).filter (· ≠ "")

/-- `util.all_equal`: whether every element of a sequence is equal
(vacuously true for the empty sequence, matching the truthiness of the
`groupby`-based source). -/
def all_equal (l : List String) : Bool :=
  match l with
  | [] => true
  | x :: xs => xs.all (· = x)

/-- The component that each split filename has at position `j` (the
loop in `remove_prefix` only reads positions below the minimum length,
so the default is never observed there). -/
def componentAt (split : List (List String)) (j : Nat) : List String :=
  split.map (fun f => f.getD j "")

/-- The `while` loop of `util.remove_prefix`: starting from component
index `i` with `fuel` comparisons left, advances while every filename
agrees on the current component. -/
def sharedFrom (split : List (List String)) : Nat → Nat → Nat
  | i, 0 => i
  | i, fuel + 1 =>
      if all_equal (componentAt split i) then sharedFrom split (i + 1) fuel
      else i

/-- The minimum component count among the split filenames
(`min(len(filename) for filename in split_filenames)`). -/
def minComponents (split : List (List String)) : Nat :=
  ((split.map List.length).min?).getD 0

/-- `util.remove_prefix`: finds the longest directory prefix shared by
all files and removes it from every file, keeping only the last
component when there is a single file.  Returns `none` for the empty
input, on which the source's `min()` raises `ValueError`.  The result
is the association list backing the returned dict, in insertion
order. -/
def remove_prefix (filenames : List String) : Option (List (String × String)) :=
  if filenames.isEmpty then none
  else
    let split := filenames.map split_all
    let minLen := minComponents split
    let pre := sharedFrom split 0 minLen
    let pre := if filenames.length = 1 then pre - 1 else pre
    some (filenames.filterMap (fun f =>
      let rest := (split_all f).drop pre
      if rest.isEmpty then none
      else some (f, String.intercalate "/" rest)))

/-- Python's `archive_path[-4:]`: the last four characters of a string
(the whole string when it is shorter). -/
def lastFour (s : String) : String :=
  String.mk (s.toList.drop (s.toList.length - 4))

/-- `util.auto_extract`, abstracted over the filesystem: takes the
archive path and the member list of the zip archive (what
`archive.namelist()` would return) and yields the flag returned by the
source plus, when extraction happens, the prefix-stripped member
mapping that the source writes to disk (`none` when nothing is
extracted). -/
def auto_extract (archive_path : String) (members : List String) :
    Bool × Option (List (String × String)) :=
  if lastFour archive_path = ".zip" then
    (true, remove_prefix members)
  else
    (false, none)

/-! ## ipk.py

The archive builder is embedded at the structural level: a gzip-compressed
tar archive is a `GzTar` value holding the gzip header's `mtime` together
with the ordered list of tar entries, each entry carrying exactly the
metadata fields that `tarfile` serializes and `_clean_info` touches.
Since the tar and gzip serializers are fixed deterministic functions of
this data (GNU format, compression level 9, empty gzip filename), two
equal `GzTar` values denote byte-identical archives. -/

/-- One tar entry: name, permission bits, ownership, modification time,
directory flag and contents.  The content type is a parameter so that
the outer archive can nest the two inner archives. -/
structure TarEntry (α : Type) where
  name : String
  mode : Nat
  uid : Nat
  gid : Nat
  uname : String
  gname : String
  mtime : Int
  isdir : Bool
  data : α
deriving DecidableEq, Repr

/-- A gzip-compressed tar archive as produced by `_targz_open`: the
`mtime` passed to `GzipFile` plus the entries in the order they are
added. -/
structure GzTar (α : Type) where
  mtime : Int
  entries : List (TarEntry α)
deriving DecidableEq, Repr

/-- Contents of an entry of the outer `.ipk` archive: either raw bytes
(given as a string) or a nested gzip-compressed tar archive. -/
inductive OuterData where
  | raw (s : String)
  | archive (t : GzTar String)
deriving DecidableEq, Repr

/-- Python's `str.removeprefix`: drops `pre` from the front of `s` when
`s` starts with it, and returns `s` unchanged otherwise. -/
def strRemovePrefix (s pre : String) : String :=
  if pre.toList.isPrefixOf s.toList then String.mk (s.toList.drop pre.toList.length)
  else s

/-- `ipk._clean_info`: rewrites the entry name relative to `root` and
forces the ownership fields to zero / empty and the modification time to
the fixed epoch. -/
def clean_info (root : String) (epoch : Int) (info : TarEntry α) : TarEntry α :=
  { info with
    name := "." ++ strRemovePrefix info.name root
    uid := 0
    gid := 0
    uname := ""
    gname := ""
    mtime := epoch }

/-- `ipk._add_file`: builds the entry for an in-memory file.  The fresh
`TarInfo('./' + name)` carries `tarfile`'s defaults (mode 0o644, uid 0,
gid 0, mtime 0, empty owner names) before the given mode is set and
`_clean_info` runs. -/
def add_file (name : String) (mode : Nat) (epoch : Int) (data : α) : TarEntry α :=
  clean_info "." epoch
    { name := "./" ++ name
      mode := mode
      uid := 0
      gid := 0
      uname := ""
      gname := ""
      mtime := 0
      isdir := false
      data := data }

/-- `ipk.make_control`: the control sub-archive, holding the rendered
control fields at mode 0o644 followed by the maintainer scripts at mode
0o755, in dict insertion order. -/
def make_control (epoch : Int) (metadata : String)
    (scripts : List (String × String)) : GzTar String :=
  { mtime := epoch
    entries := add_file "control" 0o644 epoch metadata ::
      scripts.map (fun ns => add_file ns.1 0o755 epoch ns.2) }

/-- `ipk.make_data`, abstracted over the filesystem: `tree` is the list
of entries `archive.add(pkg_dir, ...)` would produce, in traversal
order, with the metadata read from the filesystem (uid, gid, owner
names, mtimes) still attached; the filter maps `_clean_info` over
them. -/
def make_data (epoch : Int) (pkg_dir : String)
    (tree : List (TarEntry String)) : GzTar String :=
  { mtime := epoch
    entries := tree.map (clean_info pkg_dir epoch) }

/-- `ipk.make_ipk`: the outer archive.  The source adds the three
entries in the order control, data, format marker. -/
def make_ipk (epoch : Int) (pkg_dir : String) (tree : List (TarEntry String))
    (metadata : String) (scripts : List (String × String)) : GzTar OuterData :=
  { mtime := epoch
    entries := [
      add_file "control.tar.gz" 0o644 epoch
        (OuterData.archive (make_control epoch metadata scripts)),
      add_file "data.tar.gz" 0o644 epoch
        (OuterData.archive (make_data epoch pkg_dir tree)),
      add_file "debian-binary" 0o644 epoch (OuterData.raw "2.0\n")] }

/-! ## recipe.py

The recipe/package model.  The declaration bridge (`bash.get_declarations`,
which runs a bash subprocess) and `dateutil.parser.isoparse` are external
collaborators; the embedded constructors take them as function parameters
(`getDecl`, `isoparse`).  Variable sets and function sets are association
lists with Python-dict lookup semantics. -/

/-- A bash value as produced by the declaration bridge: scalar string,
indexed array with possibly-unset slots, or associative array. -/
inductive BashValue where
  | scalar (s : String)
  | indexed (xs : List (Option String))
  | assoc (xs : List (String × String))
deriving DecidableEq, Repr

/-- A variable set: names mapped to optional values (`none` stands for a
variable declared without a value). -/
abbrev Variables := List (String × Option BashValue)

/-- A function set: function names mapped to body source text. -/
abbrev Functions := List (String × String)

/-- The Python `type(…).__name__` strings that the field checkers
interpolate into their error messages. -/
def pyTypeName : Option BashValue → String
  | none => "NoneType"
  | some (.scalar _) => "str"
  | some (.indexed _) => "list"
  | some (.assoc _) => "dict"

/-- Python's `{**base, **override}` dict merge: keys of `base` keep
their position but take the overriding value, keys only in `override`
follow in their own order. -/
def dictMerge (base override : List (String × α)) : List (String × α) :=
  base.map (fun kv =>
    match override.lookup kv.1 with
    | some v => (kv.1, v)
    | none => kv) ++
  override.filter (fun kv => (base.lookup kv.1).isNone)

/-- `recipe._check_field_string`: returns the declared scalar, the
default when the field is absent and a default exists, and a validation
error otherwise. -/
def check_field_string (vars : Variables) (name : String)
    (default : Option String) : Except PyError String :=
  match vars.lookup name with
  | none =>
      match default with
      | none => .error (.invalidRecipe s!"Missing required field {name}")
      | some d => .ok d
  | some v =>
      match v with
      | some (.scalar s) => .ok s
      | _ => .error (.invalidRecipe
          s!"Field {name} must be a string, got {pyTypeName v}")

/-- `recipe._check_field_indexed`: returns the declared indexed array,
the default when the field is absent and a default exists, and a
validation error otherwise. -/
def check_field_indexed (vars : Variables) (name : String)
    (default : Option (List (Option String))) :
    Except PyError (List (Option String)) :=
  match vars.lookup name with
  | none =>
      match default with
      | none => .error (.invalidRecipe s!"Missing required field '{name}'")
      | some d => .ok d
  | some v =>
      match v with
      | some (.indexed xs) => .ok xs
      | _ => .error (.invalidRecipe
          s!"Field '{name}' must be an indexed array, got {pyTypeName v}")

/-- A constructed `Package`.  The name is optional because split-recipe
package names come from an indexed array whose slots may be unset. -/
structure Package where
  name : Option String
  vars : Variables
  functions : Functions
  pkgver : PyVersion
  arch : String
  pkgdesc : String
  url : String
  «section» : String
  license : String
  depends : List (Option String)
  conflicts : List (Option String)
  action : String
  install : List (String × String)
deriving DecidableEq, Repr

/-- `Package.__init__`: merges the parent recipe's declarations with the
package's own (own take precedence), validates the package fields, and
requires a `package()` function.  The missing-`package()` message is the
source's literal string — the braces are text, not interpolation, because
the source string lacks the `f` prefix's counterpart for `self.name`
(it is a plain string literal). -/
def Package.init (getDecl : String → Variables × Functions)
    (name : Option String) (parentVars : Variables) (parentFns : Functions)
    (source : String) : Except PyError Package := do
  let (ownV, ownF) := getDecl source
  let vars := dictMerge parentVars ownV
  let functions := dictMerge parentFns ownF
  let pkgver_str ← check_field_string vars "pkgver" none
  let pkgver ← PyVersion.parse pkgver_str
  let arch ← check_field_string vars "arch" (some "armv7-3.2")
  let pkgdesc ← check_field_string vars "pkgdesc" none
  let url ← check_field_string vars "url" none
  let «section» ← check_field_string vars "section" none
  let license ← check_field_string vars "license" none
  let depends ← check_field_indexed vars "depends" (some [])
  let conflicts ← check_field_indexed vars "conflicts" (some [])
  match functions.lookup "package" with
  | none => .error (.invalidRecipe
      "Missing required function package() for package \x7bself.name\x7d")
  | some action =>
      let install :=
        [("preinstall", (functions.lookup "preinstall").getD ""),
         ("configure", (functions.lookup "configure").getD ""),
         ("preremove", (functions.lookup "preremove").getD ""),
         ("preupgrade", (functions.lookup "preupgrade").getD ""),
         ("postremove", (functions.lookup "postremove").getD ""),
         ("postupgrade", (functions.lookup "postupgrade").getD "")]
      .ok { name, vars, functions, pkgver, arch, pkgdesc, url,
            «section», license, depends, conflicts, action, install }

/-- `Package.pkgid`: `'_'.join((self.name, str(self.pkgver), self.arch))`
(`none` models the `TypeError` that `join` would raise on a `None`
name). -/
def Package.pkgid (p : Package) : Option String :=
  p.name.map (fun n => String.intercalate "_" [n, p.pkgver.str, p.arch])

/-- `Package.filename`: the package identifier plus the `.ipk`
extension. -/
def Package.filename (p : Package) : Option String :=
  p.pkgid.map (· ++ ".ipk")

/-- A constructed `Recipe`. -/
structure Recipe where
  name : String
  root : String
  vars : Variables
  functions : Functions
  pkgnames : List (Option String)
  timestamp : Int
  maintainer : String
  image : String
  source : List (Option String)
  noextract : List (Option String)
  sha256sums : List (Option String)
  prepare : String
  build : String
  packages : List (Option String × Package)
deriving DecidableEq, Repr

/-- The split-package loop at the end of `Recipe.__init__`: for each
declared package name, requires a recipe-level function of the same name
and constructs the package from that function's body.  The error message
is the source's literal string: the braces around `pkg_name` are text
because the string literal lacks the `f` prefix. -/
def buildSplitPackages (getDecl : String → Variables × Functions)
    (vars : Variables) (functions : Functions) :
    List (Option String) → Except PyError (List (Option String × Package))
  | [] => .ok []
  | pkg_name :: rest => do
      let body? := match pkg_name with
        | none => none
        | some n => functions.lookup n
      match body? with
      | none => .error (.invalidRecipe
          "Missing required function \x7bpkg_name\x7d() for corresponding package")
      | some body => do
          let p ← Package.init getDecl pkg_name vars functions body
          let ps ← buildSplitPackages getDecl vars functions rest
          .ok ((pkg_name, p) :: ps)

/-- `Recipe.__init__`: extracts the declarations (via the provided
bridge `getDecl`), validates the recipe fields in source order, checks
the source/checksum count and the image/build coupling, and constructs
the packages.  `isoparse` stands for `dateutil.parser.isoparse`
(`none` models its `ValueError`). -/
def Recipe.init (getDecl : String → Variables × Functions)
    (isoparse : String → Option Int) (name root source : String) :
    Except PyError Recipe := do
  let (vars, functions) := getDecl source
  let pkgnames ← check_field_indexed vars "pkgnames" none
  let timestamp_str ← check_field_string vars "timestamp" none
  let timestamp ← match isoparse timestamp_str with
    | some t => Except.ok t
    | none => Except.error (.invalidRecipe
        "Field 'timestamp' does not contain a valid ISO-8601 date")
  let maintainer ← check_field_string vars "maintainer" none
  let image ← check_field_string vars "image" (some "")
  let source_arr ← check_field_indexed vars "source" (some [])
  let noextract ← check_field_indexed vars "noextract" (some [])
  let sha256sums ← check_field_indexed vars "sha256sums" (some [])
  if source_arr.length ≠ sha256sums.length then
    .error (.invalidRecipe
      s!"Expected the same number of sources and checksums, got {source_arr.length} source(s) and {sha256sums.length} checksum(s)")
  else if image ≠ "" && (functions.lookup "build").isNone then
    .error (.invalidRecipe
      "Missing build() function for a recipe which declares a build image")
  else if image = "" && (functions.lookup "build").isSome then
    .error (.invalidRecipe
      "Missing image declaration for a recipe which has a build() step")
  else do
    let prepare := (functions.lookup "prepare").getD ""
    let build := (functions.lookup "build").getD ""
    let packages ←
      match pkgnames with
      | [pkg_name] => do
          let p ← Package.init getDecl (some name) vars functions source
          Except.ok [(pkg_name, p)]
      | _ => buildSplitPackages getDecl vars functions pkgnames
    .ok { name, root, vars, functions, pkgnames, timestamp, maintainer,
          image, source := source_arr, noextract, sha256sums, prepare, build,
          packages }

/-- The checksum verification step of `Recipe.fetch_source` for one
`(source, checksum)` pair: unset slots coerce to the empty string, and a
mismatch raises a build failure unless the checksum is the literal
sentinel `SKIP`.  `fileHash` abstracts `util.file_sha256(local_path)`;
thanks to `and` short-circuiting it is never computed when the sentinel
is present. -/
def checksum_verify (source checksum : Option String) (fileHash : String) :
    Except PyError Unit :=
  let source := source.getD ""
  let checksum := checksum.getD ""
  if checksum ≠ "SKIP" && fileHash ≠ checksum then
    .error (.buildError s!"Invalid checksum for source file {source}")
  else
    .ok ()

/-! ## Claim-support definitions -/

/-- The content of a tar entry as determined by the packaging directory
alone: path, permission bits, kind and file contents.  The remaining
fields (uid, gid, owner names, mtime) vary with the invoking user and
the wall clock. -/
def entryContent (e : TarEntry α) : String × Nat × Bool × α :=
  (e.name, e.mode, e.isdir, e.data)

/-- An entry whose variable metadata has been normalized as `_clean_info`
promises: ownership zeroed, owner names emptied, mtime pinned to the
epoch. -/
def normalizedEntry (epoch : Int) (e : TarEntry α) : Prop :=
  e.uid = 0 ∧ e.gid = 0 ∧ e.uname = "" ∧ e.gname = "" ∧ e.mtime = epoch

/-- The prefix length computed by `remove_prefix`'s loop for a file
list. -/
def sharedPrefixLen (fs : List String) : Nat :=
  sharedFrom (fs.map split_all) 0 (minComponents (fs.map split_all))

/-- What the spec asserts of a multi-member extraction: the loop's
prefix length `L` is the longest shared component prefix (all members
agree below `L`, and `L` is maximal: it equals the minimum member depth
or the members disagree at `L`), and every member is mapped to its path
with exactly the first `L` components dropped (members reduced to
nothing are omitted). -/
def stripsLongestSharedPrefix (fs : List String) : Prop :=
  ∃ m, remove_prefix fs = some m ∧
    (∀ j, j < sharedPrefixLen fs →
      all_equal (componentAt (fs.map split_all) j) = true) ∧
    (sharedPrefixLen fs = minComponents (fs.map split_all) ∨
      all_equal (componentAt (fs.map split_all) (sharedPrefixLen fs)) = false) ∧
    (∀ f ∈ fs, m.lookup f =
      (if ((split_all f).drop (sharedPrefixLen fs)).isEmpty then none
       else some (String.intercalate "/" ((split_all f).drop (sharedPrefixLen fs)))))

/-- What the spec asserts of a single-member extraction: only the final
path segment of the member is kept. -/
def keepsLastComponent (f : String) : Prop :=
  ∃ last, (split_all f).getLast? = some last ∧
    remove_prefix [f] = some [(f, last)]

/-- Variable set of the recipe used to evaluate the package identifier:
name `foo`, `pkgver` `1.2-3`, `arch` `armv7-3.2`. -/
def c1vars : Variables :=
  [("pkgnames", some (.indexed [some "foo"])),
   ("timestamp", some (.scalar "2021-01-01T00:00:00Z")),
   ("maintainer", some (.scalar "Maintainer <m@example.org>")),
   ("pkgver", some (.scalar "1.2-3")),
   ("arch", some (.scalar "armv7-3.2")),
   ("pkgdesc", some (.scalar "Demo")),
   ("url", some (.scalar "https://example.org")),
   ("section", some (.scalar "utils")),
   ("license", some (.scalar "MIT"))]

/-- Function set of the identifier-evaluation recipe. -/
def c1fns : Functions := [("package", "package-body")]

/-- An ISO-8601 parse oracle defined on the timestamp used by the
concrete test recipes. -/
def testIso : String → Option Int :=
  fun s => if s = "2021-01-01T00:00:00Z" then some 1609459200 else none

/-- Variable set of a split recipe (`pkgnames=(a b)`) whose package
functions are missing. -/
def c3vars : Variables :=
  [("pkgnames", some (.indexed [some "a", some "b"])),
   ("timestamp", some (.scalar "2021-01-01T00:00:00Z")),
   ("maintainer", some (.scalar "Maintainer <m@example.org>"))]

/-- Variable set of an otherwise-valid single-package recipe carrying
the given `source` and `sha256sums` arrays. -/
def c7vars (src sums : List (Option String)) : Variables :=
  [("pkgnames", some (.indexed [some "pkg"])),
   ("timestamp", some (.scalar "2021-01-01T00:00:00Z")),
   ("maintainer", some (.scalar "Maintainer <m@example.org>")),
   ("source", some (.indexed src)),
   ("sha256sums", some (.indexed sums)),
   ("pkgver", some (.scalar "1.0-1")),
   ("pkgdesc", some (.scalar "Demo")),
   ("url", some (.scalar "https://example.org")),
   ("section", some (.scalar "utils")),
   ("license", some (.scalar "MIT"))]

/-- Function set of the count-check recipe. -/
def c7fns : Functions := [("package", "make-the-package")]

/-- The package constructed while evaluating the count-check recipe. -/
def c7package (src sums : List (Option String)) : Package :=
  { name := some "rec"
    vars := c7vars src sums
    functions := c7fns
    pkgver := ⟨"1.0", "1", 0, some "1.0"⟩
    arch := "armv7-3.2"
    pkgdesc := "Demo"
    url := "https://example.org"
    «section» := "utils"
    license := "MIT"
    depends := []
    conflicts := []
    action := "make-the-package"
    install := [("preinstall", ""), ("configure", ""), ("preremove", ""),
                ("preupgrade", ""), ("postremove", ""), ("postupgrade", "")] }

/-- The recipe constructed when the count check passes. -/
def c7recipe (src sums : List (Option String)) : Recipe :=
  { name := "rec"
    root := "/root"
    vars := c7vars src sums
    functions := c7fns
    pkgnames := [some "pkg"]
    timestamp := 1609459200
    maintainer := "Maintainer <m@example.org>"
    image := ""
    source := src
    noextract := []
    sha256sums := sums
    prepare := ""
    build := ""
    packages := [(some "pkg", c7package src sums)] }

/-- Variable set of an otherwise-valid single-package recipe declaring
the given `image` value. -/
def c8vars (img : String) : Variables :=
  [("pkgnames", some (.indexed [some "pkg"])),
   ("timestamp", some (.scalar "2021-01-01T00:00:00Z")),
   ("maintainer", some (.scalar "Maintainer <m@example.org>")),
   ("image", some (.scalar img)),
   ("pkgver", some (.scalar "1.0-1")),
   ("pkgdesc", some (.scalar "Demo")),
   ("url", some (.scalar "https://example.org")),
   ("section", some (.scalar "utils")),
   ("license", some (.scalar "MIT"))]

/-- Function set with a `build()` function declared. -/
def c8fnsBuild : Functions := [("package", "pkg-body"), ("build", "build-body")]

/-- Function set without a `build()` function. -/
def c8fnsNoBuild : Functions := [("package", "pkg-body")]

/-- The package constructed while evaluating the image/build recipe. -/
def c8package (img : String) (fns : Functions) : Package :=
  { name := some "rec"
    vars := c8vars img
    functions := fns
    pkgver := ⟨"1.0", "1", 0, some "1.0"⟩
    arch := "armv7-3.2"
    pkgdesc := "Demo"
    url := "https://example.org"
    «section» := "utils"
    license := "MIT"
    depends := []
    conflicts := []
    action := "pkg-body"
    install := [("preinstall", ""), ("configure", ""), ("preremove", ""),
                ("preupgrade", ""), ("postremove", ""), ("postupgrade", "")] }

/-- The recipe constructed when the image/build coupling check passes. -/
def c8recipe (img : String) (fns : Functions) (build : String) : Recipe :=
  { name := "rec"
    root := "/root"
    vars := c8vars img
    functions := fns
    pkgnames := [some "pkg"]
    timestamp := 1609459200
    maintainer := "Maintainer <m@example.org>"
    image := img
    source := []
    noextract := []
    sha256sums := []
    prepare := ""
    build := build
    packages := [(some "pkg", c8package img fns)] }

/-- The checksum-mismatch build failure message of `fetch_source`. -/
def c9msg (ss : String) : String :=
  s!"Invalid checksum for source file {ss}"

/-- A one-file packaging tree as recorded by a first build run: owned by
uid/gid 1000 (`builder`) and modified at wall-clock time 1700000000. -/
def c5tree1 : List (TarEntry String) :=
  [⟨"/pkg/bin/app", 0o755, 1000, 1000, "builder", "builder", 1700000000, false, "ELF"⟩]

/-- The same packaging-directory content as recorded by a second build
run under a different user and at a different wall-clock time. -/
def c5tree2 : List (TarEntry String) :=
  [⟨"/pkg/bin/app", 0o755, 0, 0, "", "", 42, false, "ELF"⟩]

/-! ## Helper lemmas -/

/-- The loop of `remove_prefix` stops at a maximal agreement point:
every component index below the result agrees across all files, and the
result either exhausts the fuel (the minimum depth) or sits on a
disagreeing index. -/
lemma sharedFrom_spec (split : List (List String)) :
    ∀ (fuel i : Nat),
      (∀ j, j < i → all_equal (componentAt split j) = true) →
      (∀ j, j < sharedFrom split i fuel →
          all_equal (componentAt split j) = true) ∧
        (sharedFrom split i fuel = i + fuel ∨
          all_equal (componentAt split (sharedFrom split i fuel)) = false) := by
  intro fuel
  induction fuel with
  | zero => intro i h; exact ⟨h, Or.inl rfl⟩
  | succ fuel ih =>
      intro i h
      by_cases hc : all_equal (componentAt split i) = true
      · have hstep : sharedFrom split i (fuel + 1) = sharedFrom split (i + 1) fuel := by
          simp [sharedFrom, hc]
        have h' : ∀ j, j < i + 1 → all_equal (componentAt split j) = true := by
          intro j hj
          rcases Nat.lt_succ_iff_lt_or_eq.mp hj with hlt | heq
          · exact h j hlt
          · subst heq; exact hc
        obtain ⟨H1, H2⟩ := ih (i + 1) h'
        rw [hstep]
        refine ⟨H1, ?_⟩
        rcases H2 with He | Hf
        · left; omega
        · right; exact Hf
      · have hstep : sharedFrom split i (fuel + 1) = i := by
          simp [sharedFrom, hc]
        rw [hstep]
        exact ⟨h, Or.inr (by simpa using hc)⟩

/-- On a single file every component position trivially agrees, so the
loop consumes all its fuel. -/
lemma sharedFrom_singleton (c : List String) :
    ∀ (fuel i : Nat), sharedFrom [c] i fuel = i + fuel := by
  intro fuel
  induction fuel with
  | zero => intro i; rfl
  | succ fuel ih =>
      intro i
      have hc : all_equal (componentAt [c] i) = true := rfl
      have hstep : sharedFrom [c] i (fuel + 1) = sharedFrom [c] (i + 1) fuel := by
        simp [sharedFrom, hc]
      rw [hstep, ih]
      omega

/-- Dropping all but one element of a nonempty list leaves exactly its
last element. -/
lemma drop_length_sub_one {α : Type} :
    ∀ (c : List α), c ≠ [] →
      ∃ last, c.getLast? = some last ∧ c.drop (c.length - 1) = [last]
  | [], h => absurd rfl h
  | [x], _ => ⟨x, rfl, rfl⟩
  | x :: y :: t, _ => by
      obtain ⟨last, h1, h2⟩ := drop_length_sub_one (y :: t) (by simp)
      refine ⟨last, ?_, ?_⟩
      · rw [List.getLast?_cons_cons]; exact h1
      · have hlen : (x :: y :: t).length - 1 = (y :: t).length - 1 + 1 := by
          simp
        rw [hlen, List.drop_succ_cons, h2]

/-- Looking a key up in a `filterMap`-built association list whose
entries are keyed by their originating element: absent entries resolve
to `none`. -/
lemma lookup_filterMap_none {g : String → Option (String × String)}
    (hg : ∀ f p, g f = some p → p.1 = f) (f : String) (hf : g f = none) :
    ∀ l : List String, (l.filterMap g).lookup f = none := by
  intro l
  induction l with
  | nil => rfl
  | cons a as ih =>
      cases hga : g a with
      | none => simpa [List.filterMap_cons, hga] using ih
      | some p =>
          have hk : p.1 = a := hg a p hga
          have hne : (f == p.1) = false := by
            rw [hk]
            apply beq_eq_false_iff_ne.mpr
            intro hfa
            rw [← hfa, hf] at hga
            cases hga
          simp [List.filterMap_cons, hga, List.lookup, hne, ih]

/-- Looking a key up in a `filterMap`-built association list whose
entries are keyed by their originating element: present entries resolve
to their value. -/
lemma lookup_filterMap_some {g : String → Option (String × String)}
    (hg : ∀ f p, g f = some p → p.1 = f) (f : String) (q : String × String)
    (hf : g f = some q) :
    ∀ l : List String, f ∈ l → (l.filterMap g).lookup f = some q.2 := by
  intro l
  induction l with
  | nil => intro h; cases h
  | cons a as ih =>
      intro hmem
      cases hga : g a with
      | none =>
          have haf : a ≠ f := by
            intro h; rw [h, hf] at hga; cases hga
          have hmem' : f ∈ as := by
            rcases List.mem_cons.mp hmem with h | h
            · exact absurd h.symm haf
            · exact h
          simpa [List.filterMap_cons, hga] using ih hmem'
      | some p =>
          have hk : p.1 = a := hg a p hga
          by_cases haf : a = f
          · subst haf
            have hpq : p = q := by
              rw [hf] at hga
              exact (Option.some.inj hga).symm
            subst hpq
            simp [List.filterMap_cons, hga, List.lookup, hk]
          · have hne : (f == p.1) = false := by
              rw [hk]
              exact beq_eq_false_iff_ne.mpr (fun h => haf h.symm)
            have hmem' : f ∈ as := by
              rcases List.mem_cons.mp hmem with h | h
              · exact absurd h.symm haf
              · exact h
            simp [List.filterMap_cons, hga, List.lookup, hne, ih hmem']

/-- `_clean_info` only reads the content fields of an entry, so mapping
it over two trees with identical content gives identical results. -/
lemma map_clean_info_congr (root : String) (epoch : Int) :
    ∀ (t1 t2 : List (TarEntry String)),
      t1.map entryContent = t2.map entryContent →
      t1.map (clean_info root epoch) = t2.map (clean_info root epoch) := by
  intro t1
  induction t1 with
  | nil =>
      intro t2 h
      cases t2 with
      | nil => rfl
      | cons b bs => simp at h
  | cons a as ih =>
      intro t2 h
      cases t2 with
      | nil => simp at h
      | cons b bs =>
          simp only [List.map_cons, List.cons.injEq, entryContent,
            Prod.mk.injEq] at h
          obtain ⟨⟨h1, h2, h3, h4⟩, hrest⟩ := h
          simp only [List.map_cons, List.cons.injEq]
          constructor
          · simp [clean_info, h1, h2, h3, h4]
          · exact ih bs hrest

/-- The check `archive_path[-4:] == '.zip'` recognizes exactly the
strings ending in `.zip`. -/
lemma lastFour_eq_iff_suffix (p : String) :
    lastFour p = ".zip" ↔ ".zip".toList <:+ p.toList := by
  constructor
  · intro h
    have hd : p.toList.drop (p.toList.length - 4) = ".zip".toList := by
      simpa [lastFour, String.toList] using congrArg String.data h
    refine ⟨p.toList.take (p.toList.length - 4), ?_⟩
    conv_rhs => rw [← List.take_append_drop (p.toList.length - 4) p.toList]
    rw [hd]
  · rintro ⟨t, ht⟩
    have hzip : (".zip".toList).length = 4 := by decide
    have hlen : p.toList.length = t.length + 4 := by
      rw [← ht, List.length_append, hzip]
    have hdrop : p.toList.drop (p.toList.length - 4) = ".zip".toList := by
      rw [hlen, Nat.add_sub_cancel, ← ht, List.drop_left]
    rw [lastFour, hdrop]
    rfl

/-- Looking up a member in the mapping built by `remove_prefix` with a
fixed prefix length `L`: each member resolves to its own path with the
first `L` components dropped, or to nothing when that drop leaves no
components. -/
lemma lookup_strip (L : Nat) (fs : List String) (f : String) (hf : f ∈ fs) :
    (fs.filterMap (fun x =>
        if ((split_all x).drop L).isEmpty then none
        else some (x, String.intercalate "/" ((split_all x).drop L)))).lookup f =
      (if ((split_all f).drop L).isEmpty then none
       else some (String.intercalate "/" ((split_all f).drop L))) := by
  have hg : ∀ (x : String) (p : String × String),
      (if ((split_all x).drop L).isEmpty then none
       else some (x, String.intercalate "/" ((split_all x).drop L))) = some p →
      p.1 = x := by
    intro x p h
    by_cases hc : ((split_all x).drop L).isEmpty
    · simp [hc] at h
    · simp [hc] at h
      rw [← h]
  by_cases hc : ((split_all f).drop L).isEmpty
  · rw [if_pos hc]
    exact lookup_filterMap_none hg f (by simp [hc]) fs
  · rw [if_neg hc]
    have := lookup_filterMap_some hg f
      (f, String.intercalate "/" ((split_all f).drop L)) (by simp [hc]) fs hf
    simpa using this

/-- Symbolic evaluation of `Recipe.init` on the count-check recipe: the
construction reduces to the source/checksum length comparison. -/
lemma c7_eval (src sums : List (Option String)) :
    Recipe.init (fun _ => (c7vars src sums, c7fns)) testIso "rec" "/root" "srctext" =
      (if src.length ≠ sums.length then
        .error (.invalidRecipe
          s!"Expected the same number of sources and checksums, got {src.length} source(s) and {sums.length} checksum(s)")
      else .ok (c7recipe src sums)) := rfl

/-- Symbolic evaluation of `Recipe.init` on the image/build recipe with
a `build()` function: the construction reduces to the image checks. -/
lemma c8_eval_build (img : String) :
    Recipe.init (fun _ => (c8vars img, c8fnsBuild)) testIso "rec" "/root" "s" =
      (if img ≠ "" && (c8fnsBuild.lookup "build").isNone then
         .error (.invalidRecipe
           "Missing build() function for a recipe which declares a build image")
       else if img = "" && (c8fnsBuild.lookup "build").isSome then
         .error (.invalidRecipe
           "Missing image declaration for a recipe which has a build() step")
       else .ok (c8recipe img c8fnsBuild "build-body")) := rfl

/-- Symbolic evaluation of `Recipe.init` on the image/build recipe
without a `build()` function. -/
lemma c8_eval_nobuild (img : String) :
    Recipe.init (fun _ => (c8vars img, c8fnsNoBuild)) testIso "rec" "/root" "s" =
      (if img ≠ "" && (c8fnsNoBuild.lookup "build").isNone then
         .error (.invalidRecipe
           "Missing build() function for a recipe which declares a build image")
       else if img = "" && (c8fnsNoBuild.lookup "build").isSome then
         .error (.invalidRecipe
           "Missing image declaration for a recipe which has a build() step")
       else .ok (c8recipe img c8fnsNoBuild "")) := rfl

/-! ## Claim theorems -/

/-- C1: the claim says `pkgid()` joins the name, the string form of the
parsed version and the architecture with `'_'`, and that name `foo`,
`pkgver` `1.2-3`, arch `armv7-3.2` yield identifier
`foo_1.2-3_armv7-3.2`.  Evaluating the code at exactly that input shows
the identifier is `foo_1.2_armv7-3.2` instead: `Version.parse` assigns
`_original` from its local `version` variable after that variable has
been cut down to the upstream part `1.2`, so `str()` loses the
revision, contradicting the source's own comment that the original
parsed version string is used. -/
theorem c1_pkgid_drops_revision :
    PyVersion.parse "1.2-3" = .ok ⟨"1.2", "3", 0, some "1.2"⟩ ∧
    (Recipe.init (fun _ => (c1vars, c1fns)) testIso "foo" "/root" "srctext").toOption.map
        (fun r => r.packages.map (fun kp => (kp.2.pkgid, kp.2.filename))) =
      some [(some "foo_1.2_armv7-3.2", some "foo_1.2_armv7-3.2.ipk")] ∧
    ("foo_1.2_armv7-3.2" : String) ≠ "foo_1.2-3_armv7-3.2" := by
  refine ⟨rfl, rfl, by decide⟩

/-- C2 (counterexample): the claim puts `debian-binary` first in the
outer archive, but `make_ipk` adds it last. -/
theorem c2_order_counterexample :
    ¬ ((make_ipk 0 "/pkg" [] "" []).entries.map (fun e => e.name) =
      ["./debian-binary", "./control.tar.gz", "./data.tar.gz"]) := by
  decide

/-- C2 (amended): for every epoch, packaging tree, metadata and script
set, `make_ipk` writes exactly three entries in the fixed order
`control.tar.gz`, `data.tar.gz`, `debian-binary`, and the
`debian-binary` entry holds exactly the text `2.0` followed by a
newline. -/
theorem c2_outer_archive_layout :
    ∀ (epoch : Int) (pkg_dir : String) (tree : List (TarEntry String))
      (metadata : String) (scripts : List (String × String)),
      (make_ipk epoch pkg_dir tree metadata scripts).entries.length = 3 ∧
      (make_ipk epoch pkg_dir tree metadata scripts).entries.map (fun e => e.name) =
        ["./control.tar.gz", "./data.tar.gz", "./debian-binary"] ∧
      ((make_ipk epoch pkg_dir tree metadata scripts).entries.map (fun e => e.data)).getLast? =
        some (.raw "2.0\n") := by
  intro epoch pkg_dir tree metadata scripts
  exact ⟨rfl, rfl, rfl⟩

/-- C3: the claim says every validation failure message names the
offending field or function.  For a split recipe `pkgnames=(a b)` with
no function `a()`, the raised message is the source's verbatim template
`Missing required function {pkg_name}() for corresponding package`
(the braces are literal text because the string lacks the `f` prefix),
so the offending function `a` is not named. -/
theorem c3_split_function_message_literal :
    Recipe.init (fun _ => (c3vars, [])) testIso "split" "/root" "srctext" =
      .error (.invalidRecipe
        "Missing required function \x7bpkg_name\x7d() for corresponding package") ∧
    ("Missing required function \x7bpkg_name\x7d() for corresponding package" : String) ≠
      "Missing required function a() for corresponding package" := by
  refine ⟨rfl, by decide⟩

/-- C9: during fetch, a checksum other than the sentinel `SKIP` that
differs from the transferred file's SHA-256 raises a build failure
naming the source; a matching checksum passes; and the sentinel `SKIP`
accepts the file with no hash comparison at all (the result does not
depend on the hash). -/
theorem c9_checksum_verification :
    ∀ (source checksum : Option String) (fileHash : String),
      (checksum.getD "" ≠ "SKIP" → fileHash ≠ checksum.getD "" →
        checksum_verify source checksum fileHash =
          .error (.buildError (c9msg (source.getD "")))) ∧
      (checksum.getD "" ≠ "SKIP" → fileHash = checksum.getD "" →
        checksum_verify source checksum fileHash = .ok ()) ∧
      (checksum = some "SKIP" →
        checksum_verify source checksum fileHash = .ok () ∧
        ∀ otherHash, checksum_verify source checksum fileHash =
          checksum_verify source checksum otherHash) := by
  intro source checksum fileHash
  refine ⟨?_, ?_, ?_⟩
  · intro h1 h2
    simp [checksum_verify, h1, h2, c9msg]
  · intro h1 h2
    simp [checksum_verify, h1, h2]
  · intro h
    subst h
    exact ⟨by simp [checksum_verify], fun otherHash => by simp [checksum_verify]⟩

/-- C9 witness: concrete instances of the three cases. -/
theorem c9_checksum_verification_witness :
    checksum_verify (some "https://example.org/a.zip") (some "abcd") "beef" =
      .error (.buildError (c9msg "https://example.org/a.zip")) ∧
    checksum_verify (some "https://example.org/a.zip") (some "abcd") "abcd" = .ok () ∧
    checksum_verify (some "https://example.org/a.zip") (some "SKIP") "anything" = .ok () :=
  ⟨(c9_checksum_verification (some "https://example.org/a.zip") (some "abcd") "beef").1
      (by decide) (by decide),
   (c9_checksum_verification (some "https://example.org/a.zip") (some "abcd") "abcd").2.1
      (by decide) (by decide),
   ((c9_checksum_verification (some "https://example.org/a.zip") (some "SKIP") "anything").2.2
      rfl).1⟩

/-- C5: `make_ipk` is deterministic in its inputs — two packaging trees
with identical content (paths, modes, kinds, file data) produce equal
archives regardless of the recorded ownership and modification times;
every entry of the outer archive and of both inner archives is
normalized to uid 0, gid 0, empty owner names and mtime equal to the
epoch; and all three gzip streams carry the epoch as their mtime. -/
theorem c5_make_ipk_reproducible :
    ∀ (epoch : Int) (pkg_dir metadata : String)
      (scripts : List (String × String)) (t1 t2 : List (TarEntry String)),
      t1.map entryContent = t2.map entryContent →
      make_ipk epoch pkg_dir t1 metadata scripts =
        make_ipk epoch pkg_dir t2 metadata scripts ∧
      (∀ e ∈ (make_ipk epoch pkg_dir t1 metadata scripts).entries,
        normalizedEntry epoch e) ∧
      (∀ e ∈ (make_control epoch metadata scripts).entries, normalizedEntry epoch e) ∧
      (∀ e ∈ (make_data epoch pkg_dir t1).entries, normalizedEntry epoch e) ∧
      (make_ipk epoch pkg_dir t1 metadata scripts).mtime = epoch ∧
      (make_control epoch metadata scripts).mtime = epoch ∧
      (make_data epoch pkg_dir t1).mtime = epoch := by
  intro epoch pkg_dir metadata scripts t1 t2 h
  refine ⟨?_, ?_, ?_, ?_, rfl, rfl, rfl⟩
  · simp only [make_ipk, make_data]
    rw [map_clean_info_congr pkg_dir epoch t1 t2 h]
  · intro e he
    simp only [make_ipk, List.mem_cons, List.not_mem_nil, or_false] at he
    rcases he with rfl | rfl | rfl <;> exact ⟨rfl, rfl, rfl, rfl, rfl⟩
  · intro e he
    simp only [make_control, List.mem_cons] at he
    rcases he with rfl | he
    · exact ⟨rfl, rfl, rfl, rfl, rfl⟩
    · obtain ⟨ns, _, rfl⟩ := List.mem_map.mp he
      exact ⟨rfl, rfl, rfl, rfl, rfl⟩
  · intro e he
    obtain ⟨x, _, rfl⟩ := List.mem_map.mp (by simpa [make_data] using he)
    exact ⟨rfl, rfl, rfl, rfl, rfl⟩

/-- C5 witness: the same one-file content recorded with different
owners and wall-clock mtimes archives identically. -/
theorem c5_make_ipk_reproducible_witness :
    c5tree1.map entryContent = c5tree2.map entryContent ∧
    make_ipk 1609459200 "/pkg" c5tree1 "Package: pkg\n" [] =
      make_ipk 1609459200 "/pkg" c5tree2 "Package: pkg\n" [] :=
  ⟨by decide,
   (c5_make_ipk_reproducible 1609459200 "/pkg" "Package: pkg\n" [] c5tree1 c5tree2
      (by decide)).1⟩

/-- C7: recipe construction fails with a validation error exactly
reporting both counts whenever the `source` and `sha256sums` arrays
have different lengths, and the check passes (construction succeeds on
an otherwise-valid recipe) when the lengths are equal. -/
theorem c7_source_checksum_count :
    ∀ src sums : List (Option String),
      (src.length ≠ sums.length →
        Recipe.init (fun _ => (c7vars src sums, c7fns)) testIso "rec" "/root" "srctext" =
          .error (.invalidRecipe
            s!"Expected the same number of sources and checksums, got {src.length} source(s) and {sums.length} checksum(s)")) ∧
      (src.length = sums.length →
        Recipe.init (fun _ => (c7vars src sums, c7fns)) testIso "rec" "/root" "srctext" =
          .ok (c7recipe src sums)) := by
  intro src sums
  constructor
  · intro h
    rw [c7_eval]
    simp [h]
  · intro h
    rw [c7_eval]
    simp [h]

/-- C7 witness: one source with no checksum is rejected with both
counts reported; one source with one checksum passes. -/
theorem c7_source_checksum_count_witness :
    Recipe.init (fun _ => (c7vars [some "app.zip"] [], c7fns)) testIso "rec" "/root" "srctext" =
      .error (.invalidRecipe
        "Expected the same number of sources and checksums, got 1 source(s) and 0 checksum(s)") ∧
    Recipe.init (fun _ => (c7vars [some "app.zip"] [some "SKIP"], c7fns)) testIso "rec" "/root" "srctext" =
      .ok (c7recipe [some "app.zip"] [some "SKIP"]) :=
  ⟨(c7_source_checksum_count [some "app.zip"] []).1 (by decide),
   (c7_source_checksum_count [some "app.zip"] [some "SKIP"]).2 (by decide)⟩

/-- C8: recipe construction fails when a non-empty `image` is declared
without a `build()` function, fails when a `build()` function is
declared without a non-empty `image`, and passes this check (an
otherwise-valid recipe constructs) exactly when both or neither are
present. -/
theorem c8_image_build_coupling :
    ∀ img : String,
      ((img ≠ "" →
        Recipe.init (fun _ => (c8vars img, c8fnsNoBuild)) testIso "rec" "/root" "s" =
          .error (.invalidRecipe
            "Missing build() function for a recipe which declares a build image")) ∧
       (img = "" →
        Recipe.init (fun _ => (c8vars img, c8fnsNoBuild)) testIso "rec" "/root" "s" =
          .ok (c8recipe img c8fnsNoBuild ""))) ∧
      ((img = "" →
        Recipe.init (fun _ => (c8vars img, c8fnsBuild)) testIso "rec" "/root" "s" =
          .error (.invalidRecipe
            "Missing image declaration for a recipe which has a build() step")) ∧
       (img ≠ "" →
        Recipe.init (fun _ => (c8vars img, c8fnsBuild)) testIso "rec" "/root" "s" =
          .ok (c8recipe img c8fnsBuild "build-body"))) := by
  intro img
  refine ⟨⟨?_, ?_⟩, ⟨?_, ?_⟩⟩
  · intro h
    rw [c8_eval_nobuild]
    simp [c8fnsNoBuild, List.lookup, h]
  · intro h
    subst h
    rfl
  · intro h
    subst h
    rfl
  · intro h
    rw [c8_eval_build]
    simp [c8fnsBuild, List.lookup, h]

/-- C8 witness: the four cases at concrete image values. -/
theorem c8_image_build_coupling_witness :
    Recipe.init (fun _ => (c8vars "base:v1.2.2", c8fnsNoBuild)) testIso "rec" "/root" "s" =
      .error (.invalidRecipe
        "Missing build() function for a recipe which declares a build image") ∧
    Recipe.init (fun _ => (c8vars "", c8fnsNoBuild)) testIso "rec" "/root" "s" =
      .ok (c8recipe "" c8fnsNoBuild "") ∧
    Recipe.init (fun _ => (c8vars "", c8fnsBuild)) testIso "rec" "/root" "s" =
      .error (.invalidRecipe
        "Missing image declaration for a recipe which has a build() step") ∧
    Recipe.init (fun _ => (c8vars "base:v1.2.2", c8fnsBuild)) testIso "rec" "/root" "s" =
      .ok (c8recipe "base:v1.2.2" c8fnsBuild "build-body") :=
  ⟨(c8_image_build_coupling "base:v1.2.2").1.1 (by decide),
   (c8_image_build_coupling "").1.2 rfl,
   (c8_image_build_coupling "").2.1 rfl,
   (c8_image_build_coupling "base:v1.2.2").2.2 (by decide)⟩

/-- C10: `auto_extract` reports an extraction exactly when the archive
path ends in `.zip`, and extracts nothing (returning `False`) on every
other path. -/
theorem c10_auto_extract_zip_only :
    ∀ (p : String) (members : List String),
      ((auto_extract p members).1 = true ↔ ".zip".toList <:+ p.toList) ∧
      ((auto_extract p members).1 = false →
        auto_extract p members = (false, none)) := by
  intro p members
  by_cases hz : lastFour p = ".zip"
  · have he : auto_extract p members = (true, remove_prefix members) := by
      simp [auto_extract, hz]
    refine ⟨?_, ?_⟩
    · rw [he]
      simp only [true_iff]
      exact (lastFour_eq_iff_suffix p).mp hz
    · intro hfalse
      rw [he] at hfalse
      cases hfalse
  · have he : auto_extract p members = (false, none) := by
      simp [auto_extract, hz]
    refine ⟨?_, fun _ => he⟩
    rw [he]
    simp only [Bool.false_eq_true, false_iff]
    exact fun hsuf => hz ((lastFour_eq_iff_suffix p).mpr hsuf)

/-- C10 witness: a zip path is recognized, a tarball path extracts
nothing. -/
theorem c10_auto_extract_zip_only_witness :
    (auto_extract "src.zip" ["only/thing.txt"]).1 = true ∧
    auto_extract "src.tar.gz" ["only/thing.txt"] = (false, none) :=
  ⟨(c10_auto_extract_zip_only "src.zip" ["only/thing.txt"]).1.mpr
      ⟨"src".toList, rfl⟩,
   (c10_auto_extract_zip_only "src.tar.gz" ["only/thing.txt"]).2 rfl⟩

/-- C6: for a multi-member archive, extraction strips exactly the
longest directory prefix shared by all members — every member agrees on
each component below the computed prefix length, the length is maximal
(it reaches the minimum member depth or sits on a disagreement), and
each member maps to its path with exactly that prefix dropped; for a
single-member archive, only the member's final path segment is kept. -/
theorem c6_remove_prefix_strips :
    (∀ fs : List String, 2 ≤ fs.length → stripsLongestSharedPrefix fs) ∧
    (∀ f : String, split_all f ≠ [] → keepsLastComponent f) := by
  constructor
  · rintro (_ | ⟨a, _ | ⟨b, t⟩⟩) hlen
    · simp at hlen
    · simp at hlen
    · have hrp : remove_prefix (a :: b :: t) =
          some ((a :: b :: t).filterMap (fun x =>
            if ((split_all x).drop (sharedPrefixLen (a :: b :: t))).isEmpty then none
            else some (x, String.intercalate "/"
              ((split_all x).drop (sharedPrefixLen (a :: b :: t)))))) := by
        unfold remove_prefix sharedPrefixLen
        simp only [List.isEmpty_cons, Bool.false_eq_true, if_false]
        rw [if_neg (by simp)]
      refine ⟨_, hrp, ?_, ?_, ?_⟩
      · obtain ⟨H1, _⟩ := sharedFrom_spec ((a :: b :: t).map split_all)
          (minComponents ((a :: b :: t).map split_all)) 0
          (fun j hj => absurd hj (Nat.not_lt_zero j))
        exact H1
      · obtain ⟨_, H2⟩ := sharedFrom_spec ((a :: b :: t).map split_all)
          (minComponents ((a :: b :: t).map split_all)) 0
          (fun j hj => absurd hj (Nat.not_lt_zero j))
        rcases H2 with He | Hf
        · left
          unfold sharedPrefixLen
          rw [He]
          exact Nat.zero_add _
        · right
          exact Hf
      · intro f hf
        exact lookup_strip (sharedPrefixLen (a :: b :: t)) (a :: b :: t) f hf
  · intro f h
    obtain ⟨last, hl, hdrop⟩ := drop_length_sub_one (split_all f) h
    refine ⟨last, hl, ?_⟩
    have hmin : minComponents [split_all f] = (split_all f).length := rfl
    have hshared : sharedFrom [split_all f] 0 ((split_all f).length) =
        (split_all f).length := by
      rw [sharedFrom_singleton]
      exact Nat.zero_add _
    simp only [ remove_prefix, List.isEmpty_cons, Bool.false_eq_true, if_false,
      List.length_singleton, if_pos, List.map_cons, List.map_nil,
      List.filterMap_cons, List.filterMap_nil]
    rw [hmin, hshared, hdrop]
    rfl

/-- C6 witness: the spec's two examples — members sharing the prefix
`foo/bar/` and the single-member archive `only/thing.txt`. -/
theorem c6_remove_prefix_strips_witness :
    stripsLongestSharedPrefix ["foo/bar/a", "foo/bar/b"] ∧
    keepsLastComponent "only/thing.txt" :=
  ⟨c6_remove_prefix_strips.1 ["foo/bar/a", "foo/bar/b"] (by decide),
   c6_remove_prefix_strips.2 "only/thing.txt" (by decide)⟩

end Toltec
